import Mathlib

/-!
Verification of the video-downloader page controller

Shallow embedding of `src/backend/static/script.js`.

Modelling conventions

* The strings that reach `encodeURIComponent` (the value of the URL field and `original_url`)
  are sequences of UTF-16 code units (`JSString`), because that function throws on an unpaired
  surrogate.  The other strings are only copied and concatenated by the script and are Lean
  `String`s.
* The page elements the script touches are fields of `Controller` (a `hidden` class is a
  `Bool`, `textContent` is a `String`).
* The JSON values the script reads are typed after the data model: a `Format` has a textual
  `format_id` and `ext` and an optional `resolution`; a `VideoInfo` has an optional integer
  `duration`.  A body that is JSON `null`, a missing `formats` array and a `null` array element
  are kept, because the script throws on them.  The `detail` of an error body may be any JSON
  value; a value that is not a string is given by its truthiness and its string conversion.
* A number is an integer-valued IEEE double, given by its value.  The quotient of a division
  is rounded to the nearest double (ties to even) and a number is printed with the shortest
  digit string that reads back as the same double, in exponent notation from `1e21` on.
* An `await fetch(..)` is a point where the handler receives the outcome of the request; the
  outcome is an argument of the handler.  `handleSearch` is split at that point into
  `handleSearchBegin` and `handleSearchResume`, and `handleSearchAmid` lets other events happen
  in between.
* Calls of `fetch`, `window.open` and `alert` are recorded in a list of `Effect`s.
* The format select is a single-selection drop-down: emptied it has no selected option, and the
  first option appended to it becomes the selected one.
* White space is what `String.prototype.trim` strips: the WhiteSpace and LineTerminator code
  points of ECMAScript.
-/

namespace VideoDownloader

/-! ## Data model -/

/-- A JavaScript string as the sequence of its UTF-16 code units. -/
abbrev JSString := List Nat

/-- One downloadable variant, as the script reads it. -/
structure Format where
  format_id : String
  resolution : Option String
  ext : String
deriving DecidableEq

/-- Metadata object returned by `/api/info`.  `formats` is `none` when the key is missing and an
element is `none` when the array holds `null`. -/
structure VideoInfo where
  title : String
  thumbnail : String
  duration : Option Int
  original_url : JSString
  formats : Option (List (Option Format))
deriving DecidableEq

/-- A property read from a parsed JSON body, as far as the operator `||` and a conversion to
string can tell: the property is missing, or it is a string, or it is another value, given by
its truthiness and its string conversion (a list of objects is truthy and converts to
`[object Object]`). -/
inductive PropertyValue where
  | missing
  | string (s : String)
  | other (truthy : Bool) (asString : String)
deriving DecidableEq

/-- Body of a non-success `/api/info` response, as far as the script reads it. -/
structure ErrorBody where
  detail : PropertyValue
deriving DecidableEq

/-- Body of a success `/api/download` response, as far as the script reads it. -/
structure DownloadBody where
  direct_url : Option String
deriving DecidableEq

/-- Result of `await response.json()`: the promise rejects (with an error carrying `message`),
or it yields JSON `null`, or it yields an object. -/
inductive Parsed (α : Type) where
  | unparseable (message : String)
  | null
  | value (a : α)
deriving DecidableEq

/-- Outcome of `fetch('/api/info?..')`: the promise rejects, or it yields a response with
`response.ok` false (`failure`), or one with `response.ok` true (`success`). -/
inductive InfoOutcome where
  | networkFailure (message : String)
  | failure (body : Parsed ErrorBody)
  | success (body : Parsed VideoInfo)
deriving DecidableEq

/-- Outcome of `fetch('/api/download?..')`.  The body of a non-success response is never read. -/
inductive DownloadOutcome where
  | networkFailure (message : String)
  | failure
  | success (body : Parsed DownloadBody)
deriving DecidableEq

/-- A thrown JavaScript error; the script only reads `err.message`. -/
structure JSError where
  message : String
deriving DecidableEq

/-- Messages of the errors the JavaScript engine raises; their text is engine-defined. -/
structure Engine where
  readOfNull : String → String
  readOfUndefined : String → String
  uriMalformed : String

/-- Calls that leave the controller. -/
inductive Effect where
  | fetch (url : String)
  | windowOpen (url : String) (target : String)
  | alert (message : String)
deriving DecidableEq

/-- An `option` element of the format drop-down. -/
structure SelectOption where
  value : String
  text : String
deriving DecidableEq

/-- The page elements bound in lines 2-14 and the variable `currentVideoInfo` of line 17. -/
structure Controller where
  urlInputValue : JSString
  searchBtnDisabled : Bool
  loaderHidden : Bool
  btnTextHidden : Bool
  errorMsgHidden : Bool
  errorMsgText : String
  resultSectionHidden : Bool
  thumbnailSrc : String
  videoTitleText : String
  videoDurationText : String
  formatOptions : List SelectOption
  formatSelected : Option Nat
  currentVideoInfo : Option VideoInfo
deriving DecidableEq

/-! ## Built-ins of the platform: strings -/

/-- The UTF-16 code units of a text. -/
def utf16 (s : String) : JSString :=
  s.data.flatMap fun c =>
    if c.toNat < 0x10000 then [c.toNat]
    else [0xD800 + (c.toNat - 0x10000) / 0x400, 0xDC00 + (c.toNat - 0x10000) % 0x400]

/-- The operator `a || b` on an optional string `a`: `null`, `undefined` and the empty string
are falsy. -/
def jsOr (a : Option String) (b : String) : String :=
  match a with
  | some s => if s = "" then b else s
  | none => b

/-- The message of `new Error(a || b)` for a property `a` of a JSON body: `a || b` converted to
a string. -/
def jsOrMessage (a : PropertyValue) (b : String) : String :=
  match a with
  | .missing => b
  | .string s => if s = "" then b else s
  | .other truthy asString => if truthy then asString else b

/-- White space and line terminators of ECMAScript, the code units `trim` strips. -/
def isWhiteSpace (n : Nat) : Bool :=
  n = 0x09 || n = 0x0A || n = 0x0B || n = 0x0C || n = 0x0D || n = 0x20 || n = 0xA0 ||
  n = 0x1680 || (0x2000 ≤ n && n ≤ 0x200A) || n = 0x2028 || n = 0x2029 || n = 0x202F ||
  n = 0x205F || n = 0x3000 || n = 0xFEFF

/-- The method `String.prototype.trim`. -/
def trim (s : JSString) : JSString :=
  ((s.dropWhile isWhiteSpace).reverse.dropWhile isWhiteSpace).reverse

/-- Code units `encodeURIComponent` leaves alone: letters, digits and `- _ . ! ~ * ' ( )`. -/
def isUnescaped (n : Nat) : Bool :=
  (0x41 ≤ n && n ≤ 0x5A) || (0x61 ≤ n && n ≤ 0x7A) || (0x30 ≤ n && n ≤ 0x39) ||
  n = 0x2D || n = 0x5F || n = 0x2E || n = 0x21 || n = 0x7E || n = 0x2A || n = 0x27 ||
  n = 0x28 || n = 0x29

/-- Leading (high) surrogate code unit. -/
def isHighSurrogate (n : Nat) : Bool := 0xD800 ≤ n && n ≤ 0xDBFF

/-- Trailing (low) surrogate code unit. -/
def isLowSurrogate (n : Nat) : Bool := 0xDC00 ≤ n && n ≤ 0xDFFF

/-- The code point of a surrogate pair. -/
def pairCodePoint (high low : Nat) : Nat :=
  0x10000 + (high - 0xD800) * 0x400 + (low - 0xDC00)

/-- The bytes of the UTF-8 encoding of a code point. -/
def utf8Bytes (n : Nat) : List Nat :=
  if n < 0x80 then [n]
  else if n < 0x800 then [0xC0 + n / 64, 0x80 + n % 64]
  else if n < 0x10000 then [0xE0 + n / 4096, 0x80 + n / 64 % 64, 0x80 + n % 64]
  else [0xF0 + n / 262144, 0x80 + n / 4096 % 64, 0x80 + n / 64 % 64, 0x80 + n % 64]

/-- Upper-case hexadecimal digit. -/
def hexDigit (d : Nat) : Char :=
  if d < 10 then Char.ofNat (0x30 + d) else Char.ofNat (0x41 + (d - 10))

/-- One escaped byte, `%XX`. -/
def percentByte (b : Nat) : List Char :=
  ['%', hexDigit (b / 16), hexDigit (b % 16)]

/-- The escape of a code point: its UTF-8 bytes, each as `%XX`. -/
def percentEncode (codePoint : Nat) : List Char :=
  (utf8Bytes codePoint).flatMap percentByte

/-- The abstract operation `Encode` of ECMAScript with the unescaped set of
`encodeURIComponent`: an unpaired surrogate raises a `URIError`. -/
def encodeUnits (eng : Engine) : JSString → Except JSError (List Char)
  | [] => .ok []
  | [u] =>
    if isUnescaped u then .ok [Char.ofNat u]
    else if isHighSurrogate u || isLowSurrogate u then .error { message := eng.uriMalformed }
    else .ok (percentEncode u)
  | u :: v :: rest =>
    if isUnescaped u then
      match encodeUnits eng (v :: rest) with
      | .ok out => .ok (Char.ofNat u :: out)
      | .error err => .error err
    else if isHighSurrogate u then
      if isLowSurrogate v then
        match encodeUnits eng rest with
        | .ok out => .ok (percentEncode (pairCodePoint u v) ++ out)
        | .error err => .error err
      else .error { message := eng.uriMalformed }
    else if isLowSurrogate u then .error { message := eng.uriMalformed }
    else
      match encodeUnits eng (v :: rest) with
      | .ok out => .ok (percentEncode u ++ out)
      | .error err => .error err

/-- The function `encodeURIComponent`. -/
def encodeURIComponent (eng : Engine) (s : JSString) : Except JSError String :=
  match encodeUnits eng s with
  | .ok out => .ok (String.mk out)
  | .error err => .error err

/-- The method `String.prototype.isWellFormed`: no surrogate code unit is unpaired. -/
def isWellFormed : JSString → Bool
  | [] => true
  | [u] => !(isHighSurrogate u || isLowSurrogate u)
  | u :: v :: rest =>
    if isHighSurrogate u then isLowSurrogate v && isWellFormed rest
    else !isLowSurrogate u && isWellFormed (v :: rest)

/-- The method `String.prototype.padStart`. -/
def padStart (s : String) (targetLength : Nat) (padString : String) : String :=
  if targetLength ≤ s.length then s
  else if padString = "" then s
  else
    let fillLen := targetLength - s.length
    String.mk (((List.replicate fillLen padString.data).flatten).take fillLen) ++ s

/-! ## Built-ins of the platform: numbers -/

/-- The integer nearest to `p / q`, ties to the even one. -/
def roundHalfEven (p q : Nat) : Nat :=
  let d := p / q
  let r := p % q
  if 2 * r < q then d
  else if q < 2 * r then d + 1
  else if d % 2 = 0 then d else d + 1

/-- How many bits `v` has beyond the 53 bits of a double's significand. -/
def excessBits : Nat → Nat → Nat
  | 0, _ => 0
  | fuel + 1, v => if v < 2 ^ 53 then 0 else excessBits fuel (v / 2) + 1

/-- The double nearest to the integer `v`. -/
def toDouble (v : Nat) : Nat :=
  let sh := excessBits 1100 v
  roundHalfEven v (2 ^ sh) * 2 ^ sh

/-- The least `k` with `2 ^ 52 ≤ a * 2 ^ k / b`. -/
def scaleUp (b : Nat) : Nat → Nat → Nat
  | 0, _ => 0
  | fuel + 1, a => if b * 2 ^ 52 ≤ a then 0 else scaleUp b fuel (2 * a) + 1

/-- The operator `a / b` on doubles with non-negative integer values, `b` positive: the double
nearest to the quotient, as a fraction whose denominator is a power of two. -/
def divDouble (a b : Nat) : Nat × Nat :=
  if a = 0 then (0, 1)
  else if 2 ^ 53 ≤ a / b then
    let sh := excessBits 1100 (a / b)
    (roundHalfEven a (b * 2 ^ sh) * 2 ^ sh, 1)
  else
    let k := scaleUp b 1100 a
    (roundHalfEven (a * 2 ^ k) b, 2 ^ k)

/-- The expression `Math.floor(a / b)` on an integer-valued double `a` and a positive `b`. -/
def mathFloorDiv (a : Int) (b : Nat) : Int :=
  match a with
  | Int.ofNat n => Int.ofNat ((divDouble n b).1 / (divDouble n b).2)
  | Int.negSucc n =>
    - Int.ofNat
      (((divDouble (n + 1) b).1 + (divDouble (n + 1) b).2 - 1) / (divDouble (n + 1) b).2)

/-- The operator `a % b` on integer-valued doubles: exact, with the sign of the dividend. -/
def jsRem (a : Int) (b : Nat) : Int := Int.tmod a b

/-- Number of decimal digits. -/
def numDigits (v : Nat) : Nat := (Nat.toDigits 10 v).length

/-- Search of `Number::toString` for the decimal with the fewest significant digits that reads
back as the double `x`: with `k` significant digits the candidates are the multiples of
`10 ^ (digits - k)` next to `x`; of two that read back as `x` the nearer one is taken. -/
def shortestFrom (x digits : Nat) : Nat → Nat → Nat
  | 0, _ => x
  | remaining + 1, k =>
    let unit := 10 ^ (digits - k)
    let lo := x / unit * unit
    let hi := lo + unit
    match decide (toDouble lo = x), decide (toDouble hi = x) with
    | true, true =>
      if x - lo < hi - x then lo
      else if hi - x < x - lo then hi
      else if x / unit % 2 = 0 then lo else hi
    | true, false => lo
    | false, true => hi
    | false, false => shortestFrom x digits remaining (k + 1)

/-- The decimal with the fewest significant digits that reads back as the double `x`. -/
def shortestDecimal (x : Nat) : Nat :=
  shortestFrom x (numDigits x) (numDigits x) 1

/-- Removal of trailing zeros. -/
def stripZeros : Nat → Nat → Nat
  | 0, v => v
  | fuel + 1, v => if v % 10 = 0 then stripZeros fuel (v / 10) else v

/-- Exponent notation of `Number::toString`: `d.ddde+n`. -/
def exponentForm (v : Nat) : String :=
  let e := Nat.repr (numDigits v - 1)
  match Nat.toDigits 10 (stripZeros (numDigits v) v) with
  | [] => ""
  | [d] => String.mk [d] ++ "e+" ++ e
  | d :: more => String.mk (d :: '.' :: more) ++ "e+" ++ e

/-- The operation `Number::toString` on a double with a non-negative integer value: decimal
digits below `1e21`, exponent notation from there on. -/
def natToString (x : Nat) : String :=
  if x = 0 then "0"
  else
    let v := shortestDecimal x
    if v < 10 ^ 21 then Nat.repr v else exponentForm v

/-- The operation `Number::toString` on an integer-valued double. -/
def numberToString (x : Int) : String :=
  match x with
  | Int.ofNat n => natToString n
  | Int.negSucc n => "-" ++ natToString (n + 1)

/-! ## The script -/

/-- The value of `formatSelect.value`: the value of the selected option, or the empty string. -/
def selectValue (st : Controller) : String :=
  match st.formatSelected with
  | none => ""
  | some i =>
    match st.formatOptions.get? i with
    | some o => o.value
    | none => ""

/-- Lines 26-36, `setLoading`. -/
def setLoading (isLoading : Bool) (st : Controller) : Controller :=
  if isLoading then
    { st with searchBtnDisabled := true, loaderHidden := false, btnTextHidden := true }
  else
    { st with searchBtnDisabled := false, loaderHidden := true, btnTextHidden := false }

/-- Lines 111-116, `formatDuration`. -/
def formatDuration (seconds : Option Int) : String :=
  match seconds with
  | none => "N/A"
  | some n =>
    if n = 0 then "N/A"
    else
      let m := mathFloorDiv n 60
      let s := jsRem n 60
      numberToString m ++ ":" ++ padStart (numberToString s) 2 "0"

/-- The `Map` of line 73, as the list of its entries in insertion order. -/
abbrev ResolutionMap := List (String × String)

/-- The method `Map.prototype.has`. -/
def mapHas (m : ResolutionMap) (key : String) : Bool :=
  m.any fun e => e.1 == key

/-- The method `Map.prototype.set`: an existing key keeps its place and takes the new value. -/
def mapSet (m : ResolutionMap) (key value : String) : ResolutionMap :=
  if mapHas m key then m.map fun e => if e.1 == key then (key, value) else e
  else m ++ [(key, value)]

/-- Line 76, the display label of a format. -/
def displayLabel (format : Format) : String :=
  jsOr format.resolution (format.ext ++ " (" ++ format.format_id ++ ")")

/-- Line 83, `formatSelect.appendChild(option)`: a drop-down without a selected option selects
the option it receives. -/
def appendOption (option : SelectOption) (st : Controller) : Controller :=
  { st with
    formatOptions := st.formatOptions ++ [option]
    formatSelected :=
      match st.formatSelected with
      | some i => some i
      | none => some st.formatOptions.length }

/-- Lines 75-85, the callback of `forEach` applied to one format. -/
def formatCallback (acc : ResolutionMap × Controller) (format : Format) :
    ResolutionMap × Controller :=
  let label := displayLabel format
  if !mapHas acc.1 label then
    (mapSet acc.1 label format.format_id,
      appendOption { value := format.format_id, text := label ++ " [" ++ format.ext ++ "]" } acc.2)
  else acc

/-- Lines 75-85, `data.formats.forEach(..)`: reading `resolution` of a `null` element throws,
and what was appended before stays. -/
def forEachFormat (eng : Engine) :
    List (Option Format) → ResolutionMap × Controller → Controller × Option JSError
  | [], acc => (acc.2, none)
  | none :: _, acc => (acc.2, some { message := eng.readOfNull "resolution" })
  | some format :: rest, acc => forEachFormat eng rest (formatCallback acc format)

/-- Lines 64-88, `displayResults`, with the error it throws, if any. -/
def displayResults (eng : Engine) (data : Option VideoInfo) (st : Controller) :
    Controller × Option JSError :=
  match data with
  | none => (st, some { message := eng.readOfNull "thumbnail" })
  | some d =>
    let st1 := { st with
      thumbnailSrc := d.thumbnail
      videoTitleText := d.title
      videoDurationText := formatDuration d.duration
      formatOptions := []
      formatSelected := none }
    match d.formats with
    | none => (st1, some { message := eng.readOfUndefined "forEach" })
    | some formats =>
      match forEachFormat eng formats ([], st1) with
      | (st2, some err) => (st2, some err)
      | (st2, none) => ({ st2 with resultSectionHidden := false }, none)


/-- Lines 56-61 of `handleSearch`: `catch`, when an error was thrown, and `finally`. -/
def handleSearchCatch (st : Controller) (thrown : Option JSError) : Controller :=
  let caught :=
    match thrown with
    | some err => { st with errorMsgText := err.message, errorMsgHidden := false }
    | none => st
  setLoading false caught

/-- How `handleSearch` gets to its `await`: it returns at line 40; or `encodeURIComponent`
throws at line 47 and the handler ends through `catch` and `finally` without a request; or the
request is sent and the handler waits for its outcome. -/
inductive SearchStart where
  | returned
  | threw (st : Controller)
  | pending (st : Controller) (request : String)
deriving DecidableEq

/-- Lines 39-47 of `handleSearch`, up to the call of `fetch`. -/
def handleSearchBegin (eng : Engine) (st : Controller) : SearchStart :=
  let url := trim st.urlInputValue
  if url = [] then .returned
  else
    let st1 := setLoading true st
    let st2 := { st1 with errorMsgHidden := true }
    let st3 := { st2 with resultSectionHidden := true }
    match encodeURIComponent eng url with
    | .error err => .threw (handleSearchCatch st3 (some err))
    | .ok encoded => .pending st3 ("/api/info?url=" ++ encoded)

/-- Lines 47-55 of `handleSearch`, the body of `try` after the request was sent. -/
def handleSearchTry (eng : Engine) (outcome : InfoOutcome) (st : Controller) :
    Controller × Option JSError :=
  match outcome with
  | .networkFailure message => (st, some { message := message })
  | .failure body =>
    match body with
    | .unparseable message => (st, some { message := message })
    | .null => (st, some { message := eng.readOfNull "detail" })
    | .value data =>
      (st, some { message := jsOrMessage data.detail "Failed to fetch video info" })
  | .success body =>
    match body with
    | .unparseable message => (st, some { message := message })
    | .null => displayResults eng none { st with currentVideoInfo := none }
    | .value data => displayResults eng (some data) { st with currentVideoInfo := some data }

/-- Lines 47-61 of `handleSearch`, from the outcome of the request on: `try`, `catch`,
`finally`.  The controller is the one found when the outcome arrives. -/
def handleSearchResume (eng : Engine) (outcome : InfoOutcome) (st : Controller) : Controller :=
  handleSearchCatch (handleSearchTry eng outcome st).1 (handleSearchTry eng outcome st).2

/-- Line 98, the URL requested by `handleDownload`. -/
def downloadRequest (encodedUrl : String) (formatId : String) : String :=
  "/api/download?url=" ++ encodedUrl ++ "&format_id=" ++ formatId

/-- Lines 98-105 of `handleDownload`, the body of `try` after the request was sent: the calls it
makes and the error it throws, if any. -/
def handleDownloadTry (eng : Engine) (outcome : DownloadOutcome) : List Effect × Option JSError :=
  match outcome with
  | .networkFailure message => ([], some { message := message })
  | .failure => ([], some { message := "Download failed to start" })
  | .success body =>
    match body with
    | .unparseable message => ([], some { message := message })
    | .null => ([], some { message := eng.readOfNull "direct_url" })
    | .value data =>
      match data.direct_url with
      | some link => if link = "" then ([], none) else ([Effect.windowOpen link "_blank"], none)
      | none => ([], none)

/-- Lines 90-109, `handleDownload`, run to its end on the given outcome of the request; it
changes nothing in the controller and reads it only before the request is sent. -/
def handleDownload (eng : Engine) (outcome : DownloadOutcome) (st : Controller) : List Effect :=
  match st.currentVideoInfo with
  | none => []
  | some info =>
    let formatId := selectValue st
    match encodeURIComponent eng info.original_url with
    | .error err => [Effect.alert ("Error: " ++ err.message)]
    | .ok encoded =>
      let request := Effect.fetch (downloadRequest encoded formatId)
      match handleDownloadTry eng outcome with
      | (calls, some err) => request :: calls ++ [Effect.alert ("Error: " ++ err.message)]
      | (calls, none) => request :: calls

/-! ## Sessions -/

/-- What can happen to the controller: the user edits the URL field or picks an option, a search
starts, a pending search receives the outcome of its request, the download button is used. -/
inductive Event where
  | input (text : JSString)
  | choose (index : Nat)
  | searchBegin
  | searchResume (outcome : InfoOutcome)
  | download (outcome : DownloadOutcome)

/-- The controller after one event. -/
def step (eng : Engine) (st : Controller) : Event → Controller
  | .input text => { st with urlInputValue := text }
  | .choose index =>
    if index < st.formatOptions.length then { st with formatSelected := some index } else st
  | .searchBegin =>
    match handleSearchBegin eng st with
    | .returned => st
    | .threw st1 => st1
    | .pending st1 _ => st1
  | .searchResume outcome => handleSearchResume eng outcome st
  | .download _ => st

/-- The controller after a sequence of events. -/
def run (eng : Engine) (st : Controller) (events : List Event) : Controller :=
  events.foldl (step eng) st

/-- The outcome is a response with `response.ok` true. -/
def InfoOutcome.isSuccess : InfoOutcome → Bool
  | .success _ => true
  | _ => false

/-- Lines 38-62, `handleSearch`, with the events `between` happening while the request is
pending: the controller when the handler has ended and the calls the handler made. -/
def handleSearchAmid (eng : Engine) (outcome : InfoOutcome) (between : List Event)
    (st : Controller) : Controller × List Effect :=
  match handleSearchBegin eng st with
  | .returned => (st, [])
  | .threw st1 => (st1, [])
  | .pending st1 request =>
    (handleSearchResume eng outcome (run eng st1 between), [Effect.fetch request])

/-- Lines 38-62, `handleSearch`, with nothing happening while the request is pending. -/
def handleSearch (eng : Engine) (outcome : InfoOutcome) (st : Controller) :
    Controller × List Effect :=
  handleSearchAmid eng outcome [] st

/-! ## Sample values -/

/-- An engine with messages in the style of V8. -/
def sampleEngine : Engine where
  readOfNull := fun p => "Cannot read properties of null (reading " ++ p ++ ")"
  readOfUndefined := fun p => "Cannot read properties of undefined (reading " ++ p ++ ")"
  uriMalformed := "URI malformed"

/-- A freshly loaded page: nothing stored, result and error regions hidden. -/
def freshPage : Controller where
  urlInputValue := []
  searchBtnDisabled := false
  loaderHidden := true
  btnTextHidden := false
  errorMsgHidden := true
  errorMsgText := ""
  resultSectionHidden := true
  thumbnailSrc := ""
  videoTitleText := ""
  videoDurationText := ""
  formatOptions := []
  formatSelected := none
  currentVideoInfo := none

/-- The three formats of the specification's example. -/
def exampleFormats : List Format :=
  [ { resolution := some "1080p", ext := "mp4", format_id := "1" },
    { resolution := some "1080p", ext := "webm", format_id := "2" },
    { resolution := none, ext := "mp4", format_id := "3" } ]

/-- A VideoInfo carrying the given formats. -/
def sampleInfo (formats : List Format) : VideoInfo where
  title := "clip"
  thumbnail := "https://x/t.jpg"
  duration := some 65
  original_url := utf16 "https://x/watch?v=1"
  formats := some (formats.map some)

/-- The page after a successful search for `https://x/v` that returned the example formats. -/
def storedPage : Controller :=
  (handleSearch sampleEngine (InfoOutcome.success (Parsed.value (sampleInfo exampleFormats)))
    { freshPage with urlInputValue := utf16 "https://x/v" }).1

/-- A string that is one unpaired high surrogate, the JSON string `"\ud800"`. -/
def loneSurrogate : JSString := [0xD800]

/-- A VideoInfo whose `original_url` is an unpaired surrogate. -/
def illFormedInfo : VideoInfo :=
  { sampleInfo exampleFormats with original_url := loneSurrogate }

/-- The page after a successful search for `https://x/v` that returned `illFormedInfo`. -/
def illFormedStoredPage : Controller :=
  (handleSearch sampleEngine (InfoOutcome.success (Parsed.value illFormedInfo))
    { freshPage with urlInputValue := utf16 "https://x/v" }).1

/-- A second VideoInfo, with one format. -/
def otherInfo : VideoInfo :=
  { sampleInfo [{ resolution := some "720p", ext := "mp4", format_id := "7" }] with
    title := "other", original_url := utf16 "https://x/watch?v=2" }

/-- The duration `6e22`, a double: `3 * 5 ^ 22 * 2 ^ 23`. -/
def hugeDuration : Nat := 60000000000000000000000

/-! ## Specification-side definitions -/

/-- Lines 80-82, the option built for a format that is kept. -/
def optionFor (format : Format) : SelectOption :=
  { value := format.format_id, text := displayLabel format ++ " [" ++ format.ext ++ "]" }

/-- The formats of a list whose display label is not among `seen` and not carried by an earlier
format of the list, in list order. -/
def keptFrom (seen : List String) : List Format → List Format
  | [] => []
  | f :: rest =>
    if displayLabel f ∈ seen then keptFrom seen rest
    else f :: keptFrom (seen ++ [displayLabel f]) rest

/-- The display label in the words of the specification: the resolution when the format has
one, otherwise `ext (format_id)`. -/
def specLabel (format : Format) : String :=
  match format.resolution with
  | some r => r
  | none => format.ext ++ " (" ++ format.format_id ++ ")"

/-- Two formats whose resolution is the empty string. -/
def emptyResolutionFormats : List Format :=
  [ { resolution := some "", ext := "mp4", format_id := "1" },
    { resolution := some "", ext := "webm", format_id := "2" } ]

/-! ## Lemmas on numbers -/

theorem roundHalfEven_ge (p q : Nat) : p / q ≤ roundHalfEven p q := by
  unfold roundHalfEven
  simp only
  split
  · exact le_refl _
  · split
    · exact Nat.le_succ _
    · split
      · exact le_refl _
      · exact Nat.le_succ _

theorem roundHalfEven_cases (p q : Nat) :
    roundHalfEven p q = p / q ∨ (roundHalfEven p q = p / q + 1 ∧ q ≤ 2 * (p % q)) := by
  unfold roundHalfEven
  simp only
  split
  · exact Or.inl rfl
  · rename_i h1
    split
    · exact Or.inr ⟨rfl, Nat.le_of_not_lt h1⟩
    · split
      · exact Or.inl rfl
      · exact Or.inr ⟨rfl, Nat.le_of_not_lt h1⟩

theorem roundHalfEven_one (v : Nat) : roundHalfEven v 1 = v := by
  unfold roundHalfEven
  simp [Nat.mod_one]

theorem excessBits_succ (fuel v : Nat) :
    excessBits (fuel + 1) v = if v < 2 ^ 53 then 0 else excessBits fuel (v / 2) + 1 := rfl

theorem excessBits_spec (fuel : Nat) :
    ∀ v, 2 ^ 53 ≤ v →
      1 ≤ excessBits (fuel + 1) v ∧ 2 ^ 52 * 2 ^ excessBits (fuel + 1) v ≤ v := by
  induction fuel with
  | zero =>
    intro v hv
    have h : ¬ v < 2 ^ 53 := Nat.not_lt.mpr hv
    rw [excessBits_succ, if_neg h]
    simp only [excessBits]
    constructor
    · omega
    · norm_num at hv ⊢; omega
  | succ fuel ih =>
    intro v hv
    have h : ¬ v < 2 ^ 53 := Nat.not_lt.mpr hv
    rw [excessBits_succ, if_neg h]
    refine ⟨Nat.le_add_left _ _, ?_⟩
    by_cases h2 : 2 ^ 53 ≤ v / 2
    · obtain ⟨_, h4⟩ := ih (v / 2) h2
      have h5 : v / 2 * 2 ≤ v := Nat.div_mul_le_self v 2
      calc 2 ^ 52 * 2 ^ (excessBits (fuel + 1) (v / 2) + 1)
          = 2 ^ 52 * 2 ^ excessBits (fuel + 1) (v / 2) * 2 := by ring
        _ ≤ v / 2 * 2 := Nat.mul_le_mul_right 2 h4
        _ ≤ v := h5
    · have h3 : v / 2 < 2 ^ 53 := Nat.lt_of_not_le h2
      rw [excessBits_succ, if_pos h3]
      norm_num at hv ⊢; omega

theorem excessBits_small (fuel v : Nat) (h : v < 2 ^ 53) : excessBits fuel v = 0 := by
  cases fuel with
  | zero => rfl
  | succ fuel => rw [excessBits_succ, if_pos h]

theorem toDouble_small (v : Nat) (h : v < 2 ^ 53) : toDouble v = v := by
  simp [toDouble, excessBits_small 1100 v h, roundHalfEven_one]

theorem toDouble_large (v : Nat) (h : 2 ^ 53 ≤ v) : 2 ^ 53 ≤ toDouble v := by
  obtain ⟨h1, h2⟩ := excessBits_spec 1099 v h
  simp only [toDouble]
  generalize excessBits 1100 v = sh at h1 h2 ⊢
  have hpos : 0 < 2 ^ sh := Nat.two_pow_pos sh
  have h3 : 2 ^ 52 ≤ v / 2 ^ sh := (Nat.le_div_iff_mul_le hpos).2 h2
  have h4 : 2 ^ 52 ≤ roundHalfEven v (2 ^ sh) := le_trans h3 (roundHalfEven_ge _ _)
  have h5 : 2 ^ 1 ≤ 2 ^ sh := Nat.pow_le_pow_right (by decide) h1
  calc 2 ^ 53 = 2 ^ 52 * 2 ^ 1 := by norm_num
    _ ≤ roundHalfEven v (2 ^ sh) * 2 ^ sh := Nat.mul_le_mul h4 h5

theorem toDouble_eq_small (v x : Nat) (hx : x < 2 ^ 53) (h : toDouble v = x) : v = x := by
  by_cases hv : v < 2 ^ 53
  · rw [toDouble_small v hv] at h; exact h
  · have := toDouble_large v (Nat.le_of_not_lt hv)
    omega

theorem shortestFrom_small (x digits : Nat) (hx : x < 2 ^ 53) :
    ∀ remaining k, shortestFrom x digits remaining k = x := by
  intro remaining
  induction remaining with
  | zero => intro k; rfl
  | succ remaining ih =>
    intro k
    simp only [shortestFrom]
    split
    · rename_i h1 h2
      have e1 := toDouble_eq_small _ x hx (of_decide_eq_true h1)
      have e2 := toDouble_eq_small _ x hx (of_decide_eq_true h2)
      split
      · exact e1
      · split
        · exact e2
        · split
          · exact e1
          · exact e2
    · rename_i h1 _
      exact toDouble_eq_small _ x hx (of_decide_eq_true h1)
    · rename_i _ h2
      exact toDouble_eq_small _ x hx (of_decide_eq_true h2)
    · exact ih (k + 1)

theorem natToString_small (x : Nat) (hx : x < 2 ^ 53) : natToString x = Nat.repr x := by
  unfold natToString
  by_cases h0 : x = 0
  · subst h0; rfl
  · have hs : shortestDecimal x = x := shortestFrom_small x _ hx _ _
    have hlt : x < 10 ^ 21 := lt_trans hx (by norm_num)
    simp only [if_neg h0, hs, if_pos hlt]

theorem scaleUp_succ (b fuel a : Nat) :
    scaleUp b (fuel + 1) a = if b * 2 ^ 52 ≤ a then 0 else scaleUp b fuel (2 * a) + 1 := rfl

theorem scaleUp_small (a : Nat) (h : a < 2 ^ 53) :
    scaleUp 60 1100 a = scaleUp 60 1095 (2 * (2 * (2 * (2 * (2 * a))))) + 5 := by
  have e : (1100 : Nat) = 1095 + 1 + 1 + 1 + 1 + 1 := rfl
  rw [e]
  norm_num at h
  rw [scaleUp_succ, if_neg (by norm_num; omega), scaleUp_succ, if_neg (by norm_num; omega),
    scaleUp_succ, if_neg (by norm_num; omega), scaleUp_succ, if_neg (by norm_num; omega),
    scaleUp_succ, if_neg (by norm_num; omega)]

theorem roundHalfEven_floor (a S : Nat) (hS : 32 ≤ S) :
    roundHalfEven (a * S) 60 / S = a / 60 := by
  have hSpos : 0 < S := by omega
  apply Nat.div_eq_of_lt_le
  · -- a / 60 * S ≤ roundHalfEven (a * S) 60
    refine le_trans ?_ (roundHalfEven_ge _ _)
    rw [Nat.le_div_iff_mul_le (by decide)]
    have h1 : a / 60 * 60 ≤ a := Nat.div_mul_le_self a 60
    calc a / 60 * S * 60 = a / 60 * 60 * S := by ring
      _ ≤ a * S := Nat.mul_le_mul_right S h1
  · -- roundHalfEven (a * S) 60 < (a / 60 + 1) * S
    have hd : a = 60 * (a / 60) + a % 60 := (Nat.div_add_mod a 60).symm
    have hr : a % 60 < 60 := Nat.mod_lt _ (by decide)
    have hp : a * S = 60 * (a / 60 * S) + a % 60 * S := by
      conv_lhs => rw [hd]
      ring
    have hu : a % 60 * S ≤ 59 * S := Nat.mul_le_mul_right S (by omega)
    have hq : a * S = 60 * (a * S / 60) + a * S % 60 := (Nat.div_add_mod (a * S) 60).symm
    have hm : a * S % 60 < 60 := Nat.mod_lt _ (by decide)
    have hexp : (a / 60 + 1) * S = a / 60 * S + S := by ring
    rw [hexp]
    generalize a / 60 * S = X at hp ⊢
    generalize a % 60 * S = u at hp hu
    rcases roundHalfEven_cases (a * S) 60 with h | ⟨h, hge⟩
    · rw [h]; omega
    · rw [h]; omega

theorem mathFloorDiv_natCast (n : Nat) (h : n < 2 ^ 53) :
    mathFloorDiv (n : Int) 60 = ((n / 60 : Nat) : Int) := by
  show Int.ofNat ((divDouble n 60).1 / (divDouble n 60).2) = _
  congr 1
  unfold divDouble
  by_cases h0 : n = 0
  · subst h0; rfl
  · have hq : ¬ 2 ^ 53 ≤ n / 60 := by
      have : n / 60 ≤ n := Nat.div_le_self n 60
      omega
    simp only [if_neg h0, if_neg hq, scaleUp_small n h]
    apply roundHalfEven_floor
    rw [pow_add]
    have : 1 ≤ 2 ^ scaleUp 60 1095 (2 * (2 * (2 * (2 * (2 * n))))) := Nat.one_le_two_pow
    calc 32 = 1 * 2 ^ 5 := by norm_num
      _ ≤ _ := Nat.mul_le_mul_right _ this

theorem jsRem_natCast (n : Nat) : jsRem (n : Int) 60 = ((n % 60 : Nat) : Int) := by
  simp [jsRem, Int.tmod_eq_emod]

theorem numberToString_natCast (k : Nat) (h : k < 2 ^ 53) :
    numberToString ((k : Nat) : Int) = Nat.repr k :=
  natToString_small k h

theorem padStart_two_digits (k : Nat) (h : k < 60) :
    padStart (Nat.repr k) 2 "0" = String.mk [Nat.digitChar (k / 10), Nat.digitChar (k % 10)] := by
  interval_cases k <;> rfl

theorem formatDuration_pos (n : Nat) (h : 0 < n) (hb : n < 2 ^ 53) :
    formatDuration (some (n : Int)) =
      Nat.repr (n / 60) ++ ":" ++
        String.mk [Nat.digitChar (n % 60 / 10), Nat.digitChar (n % 60 % 10)] := by
  have hn : (n : Int) ≠ 0 := by exact_mod_cast (Nat.pos_iff_ne_zero.mp h)
  have hm : n / 60 < 2 ^ 53 := lt_of_le_of_lt (Nat.div_le_self n 60) hb
  have hs : n % 60 < 60 := Nat.mod_lt _ (by decide)
  have hs' : n % 60 < 2 ^ 53 := lt_trans hs (by norm_num)
  simp only [formatDuration, if_neg hn]
  rw [mathFloorDiv_natCast n hb, jsRem_natCast, numberToString_natCast _ hm,
    numberToString_natCast _ hs', padStart_two_digits _ hs]

/-! ## Lemmas on strings -/

theorem trim_of_whiteSpace (s : JSString) (h : ∀ u ∈ s, isWhiteSpace u = true) :
    trim s = [] := by
  have h1 : s.dropWhile isWhiteSpace = [] := by
    rw [List.dropWhile_eq_nil_iff]
    exact h
  simp only [trim, h1, List.reverse_nil, List.dropWhile_nil]

theorem encodeUnits_ok_iff (eng : Engine) :
    ∀ (n : Nat) (s : JSString), s.length ≤ n →
      ((∃ out, encodeUnits eng s = .ok out) ↔ isWellFormed s = true) := by
  intro n
  induction n with
  | zero =>
    intro s hs
    have : s = [] := List.length_eq_zero.mp (Nat.le_zero.mp hs)
    subst this
    simp [encodeUnits, isWellFormed]
  | succ n ih =>
    intro s hs
    match s with
    | [] => simp [encodeUnits, isWellFormed]
    | [u] =>
      simp only [encodeUnits, isWellFormed]
      by_cases h1 : isUnescaped u = true
      · have h2 : isHighSurrogate u = false ∧ isLowSurrogate u = false := by
          simp only [isUnescaped, isHighSurrogate, isLowSurrogate] at h1 ⊢
          simp only [Bool.or_eq_true, Bool.and_eq_true, decide_eq_true_eq] at h1
          simp only [Bool.and_eq_false_imp, decide_eq_true_eq, decide_eq_false_iff_not]
          omega
        simp [h1, h2.1, h2.2]
      · by_cases h2 : (isHighSurrogate u || isLowSurrogate u) = true
        · simp [h1, h2]
        · simp [h1, h2]
    | u :: v :: rest =>
      have hrest : rest.length ≤ n := by simp at hs; omega
      have hvrest : (v :: rest).length ≤ n := by simp at hs ⊢; omega
      have ih1 := ih rest hrest
      have ih2 := ih (v :: rest) hvrest
      simp only [encodeUnits, isWellFormed]
      by_cases h1 : isUnescaped u = true
      · have h2 : isHighSurrogate u = false ∧ isLowSurrogate u = false := by
          simp only [isUnescaped, isHighSurrogate, isLowSurrogate] at h1 ⊢
          simp only [Bool.or_eq_true, Bool.and_eq_true, decide_eq_true_eq] at h1
          simp only [Bool.and_eq_false_imp, decide_eq_true_eq, decide_eq_false_iff_not]
          omega
        simp only [h1, if_true, h2.1, h2.2, Bool.false_eq_true, if_false, Bool.not_false,
          Bool.true_and]
        rw [← ih2]
        cases encodeUnits eng (v :: rest) <;> simp
      · simp only [h1, Bool.false_eq_true, if_false]
        by_cases h2 : isHighSurrogate u = true
        · simp only [h2, if_true]
          by_cases h3 : isLowSurrogate v = true
          · simp only [h3, if_true, Bool.true_and]
            rw [← ih1]
            cases encodeUnits eng rest <;> simp
          · simp [h3]
        · simp only [h2, Bool.false_eq_true, if_false]
          by_cases h3 : isLowSurrogate u = true
          · simp [h3]
          · simp only [h3, Bool.false_eq_true, if_false, Bool.not_false, Bool.true_and]
            rw [← ih2]
            cases encodeUnits eng (v :: rest) <;> simp

theorem encodeURIComponent_ok_iff (eng : Engine) (s : JSString) :
    (∃ out, encodeURIComponent eng s = .ok out) ↔ isWellFormed s = true := by
  rw [← encodeUnits_ok_iff eng s.length s (le_refl _)]
  unfold encodeURIComponent
  cases encodeUnits eng s <;> simp

theorem encodeURIComponent_cases (eng : Engine) (s : JSString) :
    (isWellFormed s = true ∧ ∃ out, encodeURIComponent eng s = .ok out) ∨
    (isWellFormed s = false ∧ ∃ err, encodeURIComponent eng s = .error err) := by
  have h := encodeURIComponent_ok_iff eng s
  cases he : encodeURIComponent eng s with
  | ok out => exact Or.inl ⟨h.1 ⟨out, he⟩, out, rfl⟩
  | error err =>
    refine Or.inr ⟨?_, err, rfl⟩
    cases hw : isWellFormed s with
    | false => rfl
    | true =>
      obtain ⟨out, ho⟩ := h.2 hw
      rw [he] at ho
      cases ho

/-! ## Lemmas on `displayResults` -/

theorem mapHas_iff (m : ResolutionMap) (key : String) :
    mapHas m key = true ↔ key ∈ m.map Prod.fst := by
  simp only [mapHas, List.any_eq_true, List.mem_map]
  constructor
  · rintro ⟨e, he, h⟩
    exact ⟨e, he, by simpa using h⟩
  · rintro ⟨e, he, h⟩
    exact ⟨e, he, by simpa using h⟩

theorem mapSet_keys_of_new (m : ResolutionMap) (key value : String)
    (h : key ∉ m.map Prod.fst) : (mapSet m key value).map Prod.fst = m.map Prod.fst ++ [key] := by
  have h' : mapHas m key = false := by
    rw [← Bool.not_eq_true, mapHas_iff]; exact h
  simp [mapSet, h']

theorem forEachFormat_options (eng : Engine) (fs : List Format) :
    ∀ (m : ResolutionMap) (st : Controller),
      (forEachFormat eng (fs.map some) (m, st)).2 = none ∧
      (forEachFormat eng (fs.map some) (m, st)).1.formatOptions =
        st.formatOptions ++ (keptFrom (m.map Prod.fst) fs).map optionFor := by
  induction fs with
  | nil => intro m st; simp [forEachFormat, keptFrom]
  | cons f rest ih =>
    intro m st
    by_cases h : displayLabel f ∈ m.map Prod.fst
    · have h' : mapHas m (displayLabel f) = true := (mapHas_iff _ _).2 h
      simp only [List.map_cons, forEachFormat, formatCallback, h', keptFrom, if_pos h]
      simpa using ih m st
    · have h' : mapHas m (displayLabel f) = false := by
        rw [← Bool.not_eq_true, mapHas_iff]; exact h
      simp only [List.map_cons, forEachFormat, formatCallback, h', keptFrom, if_neg h]
      have := ih (mapSet m (displayLabel f) f.format_id)
        (appendOption { value := f.format_id, text := displayLabel f ++ " [" ++ f.ext ++ "]" } st)
      rw [mapSet_keys_of_new _ _ _ h] at this
      simpa [appendOption, optionFor] using this

theorem displayResults_options (eng : Engine) (info : VideoInfo) (st : Controller)
    (fs : List Format) (h : info.formats = some (fs.map some)) :
    (displayResults eng (some info) st).2 = none ∧
    (displayResults eng (some info) st).1.formatOptions = (keptFrom [] fs).map optionFor := by
  have key := forEachFormat_options eng fs []
    { st with
      thumbnailSrc := info.thumbnail
      videoTitleText := info.title
      videoDurationText := formatDuration info.duration
      formatOptions := []
      formatSelected := none }
  simp only [displayResults, h]
  generalize forEachFormat eng (fs.map some) _ = r at key ⊢
  obtain ⟨st2, e⟩ := r
  obtain ⟨h1, h2⟩ := key
  simp only at h1 h2
  subst h1
  simpa using h2

theorem keptFrom_sublist (fs : List Format) : ∀ seen, (keptFrom seen fs).Sublist fs := by
  induction fs with
  | nil => intro seen; simp [keptFrom]
  | cons f rest ih =>
    intro seen
    by_cases h : displayLabel f ∈ seen
    · simp only [keptFrom, if_pos h]
      exact (ih seen).cons f
    · simp only [keptFrom, if_neg h]
      exact (ih _).cons₂ f

theorem keptFrom_not_seen (fs : List Format) :
    ∀ seen, ∀ g ∈ keptFrom seen fs, displayLabel g ∉ seen := by
  induction fs with
  | nil => intro seen g hg; simp [keptFrom] at hg
  | cons f rest ih =>
    intro seen g hg
    by_cases h : displayLabel f ∈ seen
    · simp only [keptFrom, if_pos h] at hg
      exact ih seen g hg
    · simp only [keptFrom, if_neg h, List.mem_cons] at hg
      rcases hg with rfl | hg
      · exact h
      · have := ih _ g hg
        simp only [List.mem_append, List.mem_singleton, not_or] at this
        exact this.1

theorem keptFrom_nodup (fs : List Format) :
    ∀ seen, ((keptFrom seen fs).map displayLabel).Nodup := by
  induction fs with
  | nil => intro seen; simp [keptFrom]
  | cons f rest ih =>
    intro seen
    by_cases h : displayLabel f ∈ seen
    · simp only [keptFrom, if_pos h]
      exact ih seen
    · simp only [keptFrom, if_neg h, List.map_cons, List.nodup_cons]
      refine ⟨?_, ih _⟩
      intro hmem
      obtain ⟨g, hg, hgl⟩ := List.mem_map.1 hmem
      have := keptFrom_not_seen rest _ g hg
      simp only [List.mem_append, List.mem_singleton, not_or] at this
      exact this.2 hgl

theorem keptFrom_first (fs : List Format) :
    ∀ seen, ∀ g ∈ keptFrom seen fs,
      fs.find? (fun f => displayLabel f == displayLabel g) = some g := by
  induction fs with
  | nil => intro seen g hg; simp [keptFrom] at hg
  | cons f rest ih =>
    intro seen g hg
    by_cases h : displayLabel f ∈ seen
    · simp only [keptFrom, if_pos h] at hg
      have hne : displayLabel f ≠ displayLabel g := by
        intro heq
        exact keptFrom_not_seen rest seen g hg (heq ▸ h)
      rw [List.find?_cons_of_neg _ (by simpa using hne)]
      exact ih seen g hg
    · simp only [keptFrom, if_neg h, List.mem_cons] at hg
      rcases hg with rfl | hg
      · simp
      · have := keptFrom_not_seen rest _ g hg
        simp only [List.mem_append, List.mem_singleton, not_or] at this
        have hne : displayLabel f ≠ displayLabel g := fun heq => this.2 heq.symm
        rw [List.find?_cons_of_neg _ (by simpa using hne)]
        exact ih _ g hg

theorem keptFrom_covers (fs : List Format) :
    ∀ seen, ∀ f ∈ fs, displayLabel f ∉ seen →
      ∃ g ∈ keptFrom seen fs, displayLabel g = displayLabel f := by
  induction fs with
  | nil => intro seen f hf; simp at hf
  | cons a rest ih =>
    intro seen f hf hns
    by_cases h : displayLabel a ∈ seen
    · simp only [keptFrom, if_pos h]
      rcases List.mem_cons.1 hf with rfl | hf
      · exact absurd h hns
      · exact ih seen f hf hns
    · simp only [keptFrom, if_neg h]
      by_cases heq : displayLabel f = displayLabel a
      · exact ⟨a, List.mem_cons_self _ _, heq.symm⟩
      · rcases List.mem_cons.1 hf with rfl | hf
        · exact absurd rfl heq
        · obtain ⟨g, hg, hgl⟩ := ih (seen ++ [displayLabel a]) f hf (by
            simp only [List.mem_append, List.mem_singleton, not_or]
            exact ⟨hns, heq⟩)
          exact ⟨g, List.mem_cons_of_mem _ hg, hgl⟩

theorem keptFrom_mem_iff (fs : List Format) (f : Format) :
    f ∈ keptFrom [] fs ↔ fs.find? (fun g => displayLabel g == displayLabel f) = some f := by
  constructor
  · exact keptFrom_first fs [] f
  · intro h
    have hf : f ∈ fs := List.mem_of_find?_eq_some h
    obtain ⟨k, hk, hkl⟩ := keptFrom_covers fs [] f hf (by simp)
    have hk' := keptFrom_first fs [] k hk
    rw [hkl, h] at hk'
    cases hk'
    exact hk

theorem forEachFormat_keeps_info (eng : Engine) (fs : List (Option Format)) :
    ∀ (m : ResolutionMap) (st : Controller),
      (forEachFormat eng fs (m, st)).1.currentVideoInfo = st.currentVideoInfo := by
  induction fs with
  | nil => intro m st; rfl
  | cons a rest ih =>
    intro m st
    cases a with
    | none => rfl
    | some f =>
      simp only [forEachFormat, formatCallback]
      split
      · rw [ih]; rfl
      · rw [ih]

theorem displayResults_keeps_info (eng : Engine) (data : Option VideoInfo) (st : Controller) :
    (displayResults eng data st).1.currentVideoInfo = st.currentVideoInfo := by
  cases data with
  | none => rfl
  | some d =>
    simp only [displayResults]
    cases hf : d.formats with
    | none => rfl
    | some formats =>
      simp only
      have key := forEachFormat_keeps_info eng formats []
        { st with
          thumbnailSrc := d.thumbnail
          videoTitleText := d.title
          videoDurationText := formatDuration d.duration
          formatOptions := []
          formatSelected := none }
      generalize forEachFormat eng formats _ = r at key ⊢
      obtain ⟨st2, _ | e⟩ := r <;> simpa using key

/-! ## Lemmas on the handlers -/

theorem setLoading_false_flags (st : Controller) :
    (setLoading false st).searchBtnDisabled = false ∧
    (setLoading false st).loaderHidden = true ∧
    (setLoading false st).btnTextHidden = false := by
  simp [setLoading]

theorem handleSearchCatch_flags (st : Controller) (thrown : Option JSError) :
    (handleSearchCatch st thrown).searchBtnDisabled = false ∧
    (handleSearchCatch st thrown).loaderHidden = true ∧
    (handleSearchCatch st thrown).btnTextHidden = false :=
  setLoading_false_flags _

theorem handleSearchCatch_frame (st : Controller) (thrown : Option JSError) :
    (handleSearchCatch st thrown).currentVideoInfo = st.currentVideoInfo ∧
    (handleSearchCatch st thrown).resultSectionHidden = st.resultSectionHidden ∧
    (handleSearchCatch st thrown).formatOptions = st.formatOptions ∧
    (handleSearchCatch st thrown).formatSelected = st.formatSelected := by
  cases thrown <;> simp [handleSearchCatch, setLoading]

theorem handleSearchCatch_error (st : Controller) (err : JSError) :
    (handleSearchCatch st (some err)).errorMsgText = err.message ∧
    (handleSearchCatch st (some err)).errorMsgHidden = false := by
  simp [handleSearchCatch, setLoading]

/-- The controller after lines 42-44. -/
theorem handleSearchBegin_ok (eng : Engine) (st : Controller) (encoded : String)
    (h : trim st.urlInputValue ≠ [])
    (he : encodeURIComponent eng (trim st.urlInputValue) = .ok encoded) :
    handleSearchBegin eng st = .pending
      { setLoading true st with errorMsgHidden := true, resultSectionHidden := true }
      ("/api/info?url=" ++ encoded) := by
  simp [handleSearchBegin, h, he]

theorem handleSearchBegin_error (eng : Engine) (st : Controller) (err : JSError)
    (h : trim st.urlInputValue ≠ [])
    (he : encodeURIComponent eng (trim st.urlInputValue) = .error err) :
    handleSearchBegin eng st = .threw
      (handleSearchCatch
        { setLoading true st with errorMsgHidden := true, resultSectionHidden := true }
        (some err)) := by
  simp [handleSearchBegin, h, he]

theorem handleSearchBegin_blank (eng : Engine) (st : Controller)
    (h : trim st.urlInputValue = []) : handleSearchBegin eng st = .returned := by
  simp [handleSearchBegin, h]

theorem handleSearchBegin_frame (eng : Engine) (st st1 : Controller)
    (h : handleSearchBegin eng st = .threw st1 ∨
      ∃ request, handleSearchBegin eng st = .pending st1 request) :
    st1.currentVideoInfo = st.currentVideoInfo ∧ st1.resultSectionHidden = true := by
  by_cases hu : trim st.urlInputValue = []
  · rw [handleSearchBegin_blank eng st hu] at h
    rcases h with h | ⟨_, h⟩ <;> cases h
  · cases he : encodeURIComponent eng (trim st.urlInputValue) with
    | ok encoded =>
      rw [handleSearchBegin_ok eng st encoded hu he] at h
      rcases h with h | ⟨_, h⟩
      · cases h
      · cases h
        simp [setLoading]
    | error err =>
      rw [handleSearchBegin_error eng st err hu he] at h
      rcases h with h | ⟨_, h⟩
      · cases h
        have hf := handleSearchCatch_frame
          { setLoading true st with errorMsgHidden := true, resultSectionHidden := true }
          (some err)
        rw [hf.1, hf.2.1]
        simp [setLoading]
      · cases h

theorem handleSearchTry_of_not_success (eng : Engine) (outcome : InfoOutcome) (st : Controller)
    (h : outcome.isSuccess = false) :
    ∃ err, handleSearchTry eng outcome st = (st, some err) := by
  cases outcome with
  | networkFailure m => exact ⟨_, rfl⟩
  | failure body => cases body <;> exact ⟨_, rfl⟩
  | success body => simp [InfoOutcome.isSuccess] at h

theorem handleSearchResume_flags (eng : Engine) (outcome : InfoOutcome) (st : Controller) :
    (handleSearchResume eng outcome st).searchBtnDisabled = false ∧
    (handleSearchResume eng outcome st).loaderHidden = true ∧
    (handleSearchResume eng outcome st).btnTextHidden = false :=
  handleSearchCatch_flags _ _

theorem handleSearchResume_keeps_info (eng : Engine) (outcome : InfoOutcome) (st : Controller)
    (h : outcome.isSuccess = false) :
    (handleSearchResume eng outcome st).currentVideoInfo = st.currentVideoInfo ∧
    (handleSearchResume eng outcome st).resultSectionHidden = st.resultSectionHidden ∧
    (handleSearchResume eng outcome st).errorMsgHidden = false ∧
    (handleSearchResume eng outcome st).formatOptions = st.formatOptions ∧
    (handleSearchResume eng outcome st).formatSelected = st.formatSelected := by
  obtain ⟨err, he⟩ := handleSearchTry_of_not_success eng outcome st h
  simp [handleSearchResume, he, handleSearchCatch, setLoading]

theorem handleSearchResume_message (eng : Engine) (outcome : InfoOutcome) (st : Controller)
    (err : JSError) (h : handleSearchTry eng outcome st = (st, some err)) :
    (handleSearchResume eng outcome st).errorMsgText = err.message := by
  simp [handleSearchResume, h, handleSearchCatch, setLoading]

theorem handleSearchResume_stores (eng : Engine) (data : VideoInfo) (st : Controller) :
    (handleSearchResume eng (InfoOutcome.success (Parsed.value data)) st).currentVideoInfo =
      some data := by
  have key := displayResults_keeps_info eng (some data) { st with currentVideoInfo := some data }
  simp only [handleSearchResume, handleSearchTry]
  rw [(handleSearchCatch_frame _ _).1, key]

theorem step_keeps_info (eng : Engine) (st : Controller) (e : Event)
    (he : ∀ o, e = Event.searchResume o → o.isSuccess = false) :
    (step eng st e).currentVideoInfo = st.currentVideoInfo := by
  cases e with
  | input text => rfl
  | choose index =>
    simp only [step]
    split <;> rfl
  | searchBegin =>
    simp only [step]
    split
    · rfl
    · rename_i st1 hb
      exact (handleSearchBegin_frame eng st st1 (Or.inl hb)).1
    · rename_i st1 request hb
      exact (handleSearchBegin_frame eng st st1 (Or.inr ⟨request, hb⟩)).1
  | searchResume o =>
    simp only [step]
    exact (handleSearchResume_keeps_info eng o st (he o rfl)).1
  | download o => rfl

theorem step_keeps_hidden (eng : Engine) (st : Controller) (e : Event)
    (h : st.resultSectionHidden = true)
    (he : ∀ o, e = Event.searchResume o → o.isSuccess = false) :
    (step eng st e).resultSectionHidden = true := by
  cases e with
  | input text => exact h
  | choose index =>
    simp only [step]
    split <;> exact h
  | searchBegin =>
    simp only [step]
    split
    · exact h
    · rename_i st1 hb
      exact (handleSearchBegin_frame eng st st1 (Or.inl hb)).2
    · rename_i st1 request hb
      exact (handleSearchBegin_frame eng st st1 (Or.inr ⟨request, hb⟩)).2
  | searchResume o =>
    simp only [step]
    rw [(handleSearchResume_keeps_info eng o st (he o rfl)).2.1]; exact h
  | download o => exact h

theorem run_keeps_info (eng : Engine) (events : List Event) :
    ∀ st : Controller, (∀ o, Event.searchResume o ∈ events → o.isSuccess = false) →
      (run eng st events).currentVideoInfo = st.currentVideoInfo := by
  induction events with
  | nil => intro st _; rfl
  | cons e rest ih =>
    intro st he
    simp only [run, List.foldl_cons]
    have h1 := ih (step eng st e) (fun o ho => he o (List.mem_cons_of_mem _ ho))
    simp only [run] at h1
    rw [h1]
    exact step_keeps_info eng st e (fun o ho => he o (by simp [ho]))

theorem run_keeps_hidden (eng : Engine) (events : List Event) :
    ∀ st : Controller, st.resultSectionHidden = true →
      (∀ o, Event.searchResume o ∈ events → o.isSuccess = false) →
      (run eng st events).resultSectionHidden = true := by
  induction events with
  | nil => intro st h _; exact h
  | cons e rest ih =>
    intro st h he
    simp only [run, List.foldl_cons]
    exact ih (step eng st e)
      (step_keeps_hidden eng st e h (fun o ho => he o (by simp [ho])))
      (fun o ho => he o (List.mem_cons_of_mem _ ho))

theorem handleSearchAmid_ok (eng : Engine) (outcome : InfoOutcome) (between : List Event)
    (st : Controller) (encoded : String) (h : trim st.urlInputValue ≠ [])
    (he : encodeURIComponent eng (trim st.urlInputValue) = .ok encoded) :
    handleSearchAmid eng outcome between st =
      (handleSearchResume eng outcome (run eng
          { setLoading true st with errorMsgHidden := true, resultSectionHidden := true }
          between),
        [Effect.fetch ("/api/info?url=" ++ encoded)]) := by
  simp only [handleSearchAmid, handleSearchBegin_ok eng st encoded h he]

theorem handleSearchAmid_error (eng : Engine) (outcome : InfoOutcome) (between : List Event)
    (st : Controller) (err : JSError) (h : trim st.urlInputValue ≠ [])
    (he : encodeURIComponent eng (trim st.urlInputValue) = .error err) :
    handleSearchAmid eng outcome between st =
      (handleSearchCatch
          { setLoading true st with errorMsgHidden := true, resultSectionHidden := true }
          (some err), []) := by
  simp only [handleSearchAmid, handleSearchBegin_error eng st err h he]

theorem handleDownload_of_stored (eng : Engine) (outcome : DownloadOutcome) (st : Controller)
    (info : VideoInfo) (encoded : String) (h : st.currentVideoInfo = some info)
    (he : encodeURIComponent eng info.original_url = .ok encoded) :
    handleDownload eng outcome st =
      Effect.fetch (downloadRequest encoded (selectValue st)) ::
        ((handleDownloadTry eng outcome).1 ++
          match (handleDownloadTry eng outcome).2 with
          | some err => [Effect.alert ("Error: " ++ err.message)]
          | none => []) := by
  simp only [handleDownload, h, he]
  rcases handleDownloadTry eng outcome with ⟨calls, _ | err⟩ <;> simp

theorem handleDownload_of_malformed (eng : Engine) (outcome : DownloadOutcome)
    (st : Controller) (info : VideoInfo) (err : JSError) (h : st.currentVideoInfo = some info)
    (he : encodeURIComponent eng info.original_url = .error err) :
    handleDownload eng outcome st = [Effect.alert ("Error: " ++ err.message)] := by
  simp only [handleDownload, h, he]

theorem handleDownloadTry_no_fetch (eng : Engine) (outcome : DownloadOutcome) :
    ∀ e ∈ (handleDownloadTry eng outcome).1 ++
        (match (handleDownloadTry eng outcome).2 with
          | some err => [Effect.alert ("Error: " ++ err.message)]
          | none => []),
      ∀ u, e ≠ Effect.fetch u := by
  intro e he u
  rcases outcome with m | _ | body
  · simp [handleDownloadTry] at he; simp [he]
  · simp [handleDownloadTry] at he; simp [he]
  · rcases body with m | _ | ⟨_ | link⟩
    · simp [handleDownloadTry] at he; simp [he]
    · simp [handleDownloadTry] at he; simp [he]
    · simp [handleDownloadTry] at he
    · by_cases hl : link = ""
      · simp [handleDownloadTry, hl] at he
      · simp [handleDownloadTry, hl] at he; simp [he]

/-! ## The claims -/

/-- C1 (as amended). When `formats` is a list of formats, the options built by `displayResults`
are, in order, the options (value `format_id`, text `label [ext]`) of a list `kept` of formats
such that: a format is in `kept` exactly when it is the first format of the input with its
display label; no display label occurs twice in `kept`; `kept` is a sub-list of the input, so
the options keep the relative order of those first formats; and every display label of the
input has its option.  The display label is the resolution when it is present and not the
empty string, and `ext (format_id)` otherwise. -/
theorem displayResults_first_wins (eng : Engine) (st : Controller) (info : VideoInfo)
    (fs : List Format) (h : info.formats = some (fs.map some)) :
    ∃ kept : List Format,
      (displayResults eng (some info) st).1.formatOptions =
        kept.map (fun f =>
          { value := f.format_id, text := displayLabel f ++ " [" ++ f.ext ++ "]" }) ∧
      (∀ f, f ∈ kept ↔ fs.find? (fun g => displayLabel g == displayLabel f) = some f) ∧
      (kept.map displayLabel).Nodup ∧
      kept.Sublist fs ∧
      (∀ f ∈ fs, ∃ g ∈ kept, displayLabel g = displayLabel f) ∧
      (∀ f : Format, displayLabel f =
        match f.resolution with
        | some r => if r = "" then f.ext ++ " (" ++ f.format_id ++ ")" else r
        | none => f.ext ++ " (" ++ f.format_id ++ ")") := by
  refine ⟨keptFrom [] fs, ?_, keptFrom_mem_iff fs, keptFrom_nodup fs [], keptFrom_sublist fs [],
    ?_, ?_⟩
  · rw [(displayResults_options eng info st fs h).2]
    rfl
  · intro f hf
    exact keptFrom_covers fs [] f hf (by simp)
  · intro f
    cases hr : f.resolution <;> simp [displayLabel, jsOr, hr]

/-- C1 (witness). The statement at the example formats on a fresh page. -/
theorem displayResults_first_wins_witness :
    (sampleInfo exampleFormats).formats = some (exampleFormats.map some) ∧
    ∃ kept : List Format,
      (displayResults sampleEngine (some (sampleInfo exampleFormats)) freshPage).1.formatOptions =
        kept.map (fun f =>
          { value := f.format_id, text := displayLabel f ++ " [" ++ f.ext ++ "]" }) ∧
      (∀ f, f ∈ kept ↔
        exampleFormats.find? (fun g => displayLabel g == displayLabel f) = some f) ∧
      (kept.map displayLabel).Nodup ∧
      kept.Sublist exampleFormats ∧
      (∀ f ∈ exampleFormats, ∃ g ∈ kept, displayLabel g = displayLabel f) ∧
      (∀ f : Format, displayLabel f =
        match f.resolution with
        | some r => if r = "" then f.ext ++ " (" ++ f.format_id ++ ")" else r
        | none => f.ext ++ " (" ++ f.format_id ++ ")") :=
  ⟨rfl, displayResults_first_wins sampleEngine freshPage (sampleInfo exampleFormats)
    exampleFormats rfl⟩

/-- C1 (counterexample). Two formats whose resolution is the empty string carry the same label
in the words of the claim, yet `displayResults` builds one option for each of them. -/
theorem displayResults_empty_resolution_counterexample :
    emptyResolutionFormats.map specLabel = ["", ""] ∧
    (displayResults sampleEngine (some (sampleInfo emptyResolutionFormats))
        freshPage).1.formatOptions =
      [{ value := "1", text := "mp4 (1) [mp4]" }, { value := "2", text := "webm (2) [webm]" }] ∧
    ¬ (displayResults sampleEngine (some (sampleInfo emptyResolutionFormats))
        freshPage).1.formatOptions.length ≤ ((emptyResolutionFormats.map specLabel).dedup).length := by
  refine ⟨by decide, by decide, by decide⟩

/-- C2. When `formats` is a list of formats, the formats `displayResults` keeps are those that
are the first of the list with their display label, and the options of the select are, in
order, one option per kept format with text `label [ext]` and value `format_id`; for the three
formats of the example the options are exactly "1080p [mp4]" with value "1" and
"mp4 (3) [mp4]" with value "3", whatever the select held before. -/
theorem displayResults_option_text (eng : Engine) (st : Controller) (info : VideoInfo)
    (fs : List Format) (h : info.formats = some (fs.map some)) :
    (∃ kept : List Format,
      (∀ f, f ∈ kept ↔ fs.find? (fun g => displayLabel g == displayLabel f) = some f) ∧
      (displayResults eng (some info) st).1.formatOptions =
        kept.map (fun f =>
          { value := f.format_id, text := displayLabel f ++ " [" ++ f.ext ++ "]" })) ∧
    (∀ (title thumbnail : String) (original_url : JSString) (duration : Option Int),
      (displayResults eng
        (some { title := title, thumbnail := thumbnail, duration := duration,
                original_url := original_url, formats := some (exampleFormats.map some) })
        st).1.formatOptions =
        [{ value := "1", text := "1080p [mp4]" }, { value := "3", text := "mp4 (3) [mp4]" }]) := by
  refine ⟨⟨keptFrom [] fs, keptFrom_mem_iff fs, ?_⟩, ?_⟩
  · rw [(displayResults_options eng info st fs h).2]
    rfl
  · intro title thumbnail original_url duration
    rw [(displayResults_options eng _ st exampleFormats rfl).2]
    decide

/-- C2 (witness). The statement at the example formats, on a page whose select holds a stale
option. -/
theorem displayResults_option_text_witness :
    (sampleInfo exampleFormats).formats = some (exampleFormats.map some) ∧
    (displayResults sampleEngine (some (sampleInfo exampleFormats))
        { freshPage with formatOptions := [{ value := "9", text := "stale" }],
                         formatSelected := some 0 }).1.formatOptions =
      [{ value := "1", text := "1080p [mp4]" }, { value := "3", text := "mp4 (3) [mp4]" }] :=
  ⟨rfl, (displayResults_option_text sampleEngine
    { freshPage with formatOptions := [{ value := "9", text := "stale" }],
                     formatSelected := some 0 }
    (sampleInfo exampleFormats) exampleFormats rfl).2 _ _ _ _⟩

/-- C3 (as amended). `formatDuration` returns "N/A" when the duration is absent or 0; for a
positive integer number of seconds below `2 ^ 53` it returns the decimal numeral of
`seconds / 60` (rounded down), a colon, and `seconds mod 60` as exactly two decimal digits;
`formatDuration(0)` is "N/A", `formatDuration(65)` is "1:05" and `formatDuration(3661)` is
"61:01". -/
theorem formatDuration_spec (n : Nat) (h : 0 < n) (hb : n < 2 ^ 53) :
    formatDuration none = "N/A" ∧
    formatDuration (some 0) = "N/A" ∧
    formatDuration (some (n : Int)) =
      Nat.repr (n / 60) ++ ":" ++
        String.mk [Nat.digitChar (n % 60 / 10), Nat.digitChar (n % 60 % 10)] ∧
    formatDuration (some 65) = "1:05" ∧
    formatDuration (some 3661) = "61:01" :=
  ⟨rfl, rfl, formatDuration_pos n h hb, by decide, by decide⟩

/-- C3 (witness). The statement at 125 seconds. -/
theorem formatDuration_spec_witness :
    0 < 125 ∧ 125 < 2 ^ 53 ∧ formatDuration (some ((125 : Nat) : Int)) = "2:05" :=
  ⟨by decide, by decide, (formatDuration_spec 125 (by decide) (by decide)).2.2.1⟩

/-- C3 (counterexample). The duration `6e22` is a positive integer and a double; its quotient
by 60 is `1e21`, which JavaScript prints in exponent notation: the result is "1e+21:00", not
the decimal numeral of the quotient followed by ":00". -/
theorem formatDuration_huge_counterexample :
    0 < hugeDuration ∧
    toDouble hugeDuration = hugeDuration ∧
    formatDuration (some (hugeDuration : Int)) = "1e+21:00" ∧
    formatDuration (some (hugeDuration : Int)) ≠
      Nat.repr (hugeDuration / 60) ++ ":" ++
        String.mk [Nat.digitChar (hugeDuration % 60 / 10),
          Nat.digitChar (hugeDuration % 60 % 10)] := by
  refine ⟨by decide, by decide, by decide, by decide⟩

/-- C4. When the URL field holds only white space (or nothing), `handleSearch` issues no
request and returns the controller it was given, unchanged in every field. -/
theorem handleSearch_blank (eng : Engine) (outcome : InfoOutcome) (st : Controller)
    (h : ∀ u ∈ st.urlInputValue, isWhiteSpace u = true) :
    handleSearch eng outcome st = (st, []) := by
  simp [handleSearch, handleSearchAmid, handleSearchBegin, trim_of_whiteSpace _ h]

/-- C4 (witness). The statement at a URL field holding a space, a tab and a line feed. -/
theorem handleSearch_blank_witness :
    (∀ u ∈ ({ freshPage with urlInputValue := utf16 " \t\n" } : Controller).urlInputValue,
      isWhiteSpace u = true) ∧
    handleSearch sampleEngine (InfoOutcome.success (Parsed.value (sampleInfo exampleFormats)))
        { freshPage with urlInputValue := utf16 " \t\n" } =
      ({ freshPage with urlInputValue := utf16 " \t\n" }, []) :=
  ⟨by decide, handleSearch_blank _ _ _ (by decide)⟩

/-- C5 (as amended). Let the URL field be non-empty after trimming, let the metadata request
have any outcome (rejection, non-success response, success response, unreadable body, render
that throws) and let any events happen while the request is pending.  When `handleSearch` has
ended the search button is enabled, the loader hidden and the button text visible.  When the
trimmed value has no unpaired surrogate, `handleSearch` issues exactly one request, to
`/api/info` with the trimmed URL percent-encoded.  When it has one, `encodeURIComponent` throws
inside the `try`: no request is issued and the error region shows the message of the error. -/
theorem handleSearch_one_request (eng : Engine) (outcome : InfoOutcome) (between : List Event)
    (st : Controller) (h : trim st.urlInputValue ≠ []) :
    ((handleSearchAmid eng outcome between st).1.searchBtnDisabled = false ∧
      (handleSearchAmid eng outcome between st).1.loaderHidden = true ∧
      (handleSearchAmid eng outcome between st).1.btnTextHidden = false) ∧
    (isWellFormed (trim st.urlInputValue) = true →
      ∃ encoded, encodeURIComponent eng (trim st.urlInputValue) = .ok encoded ∧
        (handleSearchAmid eng outcome between st).2 =
          [Effect.fetch ("/api/info?url=" ++ encoded)]) ∧
    (isWellFormed (trim st.urlInputValue) = false →
      ∃ err, encodeURIComponent eng (trim st.urlInputValue) = .error err ∧
        (handleSearchAmid eng outcome between st).2 = [] ∧
        (handleSearchAmid eng outcome between st).1.errorMsgHidden = false ∧
        (handleSearchAmid eng outcome between st).1.errorMsgText = err.message) := by
  rcases encodeURIComponent_cases eng (trim st.urlInputValue) with
    ⟨hw, encoded, he⟩ | ⟨hw, err, he⟩
  · rw [handleSearchAmid_ok eng outcome between st encoded h he]
    refine ⟨handleSearchResume_flags _ _ _, fun _ => ⟨encoded, he, rfl⟩, ?_⟩
    intro hw'
    rw [hw] at hw'
    cases hw'
  · rw [handleSearchAmid_error eng outcome between st err h he]
    refine ⟨handleSearchCatch_flags _ _, ?_, fun _ => ⟨err, he, rfl, ?_, ?_⟩⟩
    · intro hw'
      rw [hw] at hw'
      cases hw'
    · exact (handleSearchCatch_error _ err).2
    · exact (handleSearchCatch_error _ err).1

/-- C5 (witness). The statement at a success response whose body has no `formats`, so that the
render step throws, with a second search started while the request is pending. -/
theorem handleSearch_one_request_witness :
    trim ({ freshPage with urlInputValue := utf16 " https://x/a b " } :
      Controller).urlInputValue ≠ [] ∧
    (handleSearchAmid sampleEngine
        (InfoOutcome.success (Parsed.value { sampleInfo exampleFormats with formats := none }))
        [Event.searchBegin]
        { freshPage with urlInputValue := utf16 " https://x/a b " }).1.searchBtnDisabled =
      false :=
  ⟨by decide,
    (handleSearch_one_request sampleEngine
      (InfoOutcome.success (Parsed.value { sampleInfo exampleFormats with formats := none }))
      [Event.searchBegin]
      { freshPage with urlInputValue := utf16 " https://x/a b " } (by decide)).1.1⟩

/-- C5 (counterexample). The URL field holds one unpaired surrogate: it is not empty after
trimming, yet `handleSearch` issues no request; `encodeURIComponent` threw and the error region
shows its message. -/
theorem handleSearch_lone_surrogate_counterexample :
    trim ({ freshPage with urlInputValue := loneSurrogate } : Controller).urlInputValue ≠ [] ∧
    (handleSearch sampleEngine (InfoOutcome.success (Parsed.value (sampleInfo exampleFormats)))
      { freshPage with urlInputValue := loneSurrogate }).2 = [] ∧
    (handleSearch sampleEngine (InfoOutcome.success (Parsed.value (sampleInfo exampleFormats)))
      { freshPage with urlInputValue := loneSurrogate }).1.errorMsgText = "URI malformed" := by
  refine ⟨by decide, by decide, by decide⟩

/-- C6 (as amended). Let the URL field be non-empty after trimming and free of unpaired
surrogates, let the metadata fetch fail (the response is not a success response) and let any
events happen while the request is pending.  When `handleSearch` has ended the error region is
visible, and the result section is hidden provided no search received a success response in
between.  The text shown is: for a non-success response whose body is an object, the `detail`
when it is a non-empty string, the string conversion of the `detail` when it is another truthy
value, and "Failed to fetch video info" when the `detail` is missing or falsy; for a rejected
request or a body that cannot be parsed, the message of the error raised.  A 404 response with
body `detail: "not found"` shows exactly "not found". -/
theorem handleSearch_failure_message (eng : Engine) (outcome : InfoOutcome)
    (between : List Event) (st : Controller)
    (h : trim st.urlInputValue ≠ []) (hw : isWellFormed (trim st.urlInputValue) = true)
    (hf : outcome.isSuccess = false) :
    (handleSearchAmid eng outcome between st).1.errorMsgHidden = false ∧
    ((∀ o, Event.searchResume o ∈ between → o.isSuccess = false) →
      (handleSearchAmid eng outcome between st).1.resultSectionHidden = true) ∧
    (∀ d, outcome = InfoOutcome.failure (Parsed.value { detail := PropertyValue.string d }) →
      d ≠ "" → (handleSearchAmid eng outcome between st).1.errorMsgText = d) ∧
    (∀ shown, outcome =
        InfoOutcome.failure (Parsed.value { detail := PropertyValue.other true shown }) →
      (handleSearchAmid eng outcome between st).1.errorMsgText = shown) ∧
    (∀ body, outcome = InfoOutcome.failure (Parsed.value body) →
      (body.detail = PropertyValue.missing ∨ body.detail = PropertyValue.string "" ∨
        ∃ shown, body.detail = PropertyValue.other false shown) →
      (handleSearchAmid eng outcome between st).1.errorMsgText =
        "Failed to fetch video info") ∧
    (∀ m, outcome = InfoOutcome.networkFailure m →
      (handleSearchAmid eng outcome between st).1.errorMsgText = m) ∧
    (∀ m, outcome = InfoOutcome.failure (Parsed.unparseable m) →
      (handleSearchAmid eng outcome between st).1.errorMsgText = m) ∧
    (handleSearchAmid eng
      (InfoOutcome.failure (Parsed.value { detail := PropertyValue.string "not found" }))
      between st).1.errorMsgText = "not found" := by
  obtain ⟨encoded, he⟩ := (encodeURIComponent_ok_iff eng _).2 hw
  rw [handleSearchAmid_ok eng outcome between st encoded h he,
    handleSearchAmid_ok eng _ between st encoded h he]
  refine ⟨(handleSearchResume_keeps_info eng outcome _ hf).2.2.1, ?_, ?_, ?_, ?_, ?_, ?_, ?_⟩
  · intro hb
    show (handleSearchResume eng outcome _).resultSectionHidden = true
    rw [(handleSearchResume_keeps_info eng outcome _ hf).2.1]
    exact run_keeps_hidden eng between _ rfl hb
  · rintro d rfl hd
    exact (handleSearchResume_message eng _ _ _ rfl).trans (by simp [jsOrMessage, hd])
  · rintro shown rfl
    exact (handleSearchResume_message eng _ _ _ rfl).trans (by simp [jsOrMessage])
  · rintro body rfl hb
    refine (handleSearchResume_message eng _ _ _ rfl).trans ?_
    rcases hb with hb | hb | ⟨shown, hb⟩ <;> simp [jsOrMessage, hb]
  · rintro m rfl
    exact handleSearchResume_message eng _ _ _ rfl
  · rintro m rfl
    exact handleSearchResume_message eng _ _ _ rfl
  · exact (handleSearchResume_message eng _ _ _ rfl).trans (by simp [jsOrMessage])

/-- C6 (witness). The statement at a non-success response with `detail: "gone"`, with an edit
of the URL field while the request is pending. -/
theorem handleSearch_failure_message_witness :
    trim ({ freshPage with urlInputValue := utf16 "https://x/v" } :
      Controller).urlInputValue ≠ [] ∧
    isWellFormed (trim ({ freshPage with urlInputValue := utf16 "https://x/v" } :
      Controller).urlInputValue) = true ∧
    (handleSearchAmid sampleEngine
      (InfoOutcome.failure (Parsed.value { detail := PropertyValue.string "gone" }))
      [Event.input (utf16 "https://x/w")]
      { freshPage with urlInputValue := utf16 "https://x/v" }).1.errorMsgText = "gone" :=
  ⟨by decide, by decide,
    (handleSearch_failure_message sampleEngine
      (InfoOutcome.failure (Parsed.value { detail := PropertyValue.string "gone" }))
      [Event.input (utf16 "https://x/w")]
      { freshPage with urlInputValue := utf16 "https://x/v" } (by decide) (by decide)
      rfl).2.2.1 "gone" rfl (by decide)⟩

/-- C6 (counterexample). A rejected request (network failure, message "Failed to fetch") has
no body, yet the error region shows the message of the rejection, not the generic message; a
non-success response whose body has the empty `detail` shows the generic message, not the
`detail`; and when a second search succeeds while the first is pending, the first, failing,
ends with the result section visible. -/
theorem handleSearch_network_failure_counterexample :
    (handleSearch sampleEngine (InfoOutcome.networkFailure "Failed to fetch")
      { freshPage with urlInputValue := utf16 "https://x/v" }).1.errorMsgText =
        "Failed to fetch" ∧
    (handleSearch sampleEngine (InfoOutcome.networkFailure "Failed to fetch")
      { freshPage with urlInputValue := utf16 "https://x/v" }).1.errorMsgText ≠
        "Failed to fetch video info" ∧
    (handleSearch sampleEngine
      (InfoOutcome.failure (Parsed.value { detail := PropertyValue.string "" }))
      { freshPage with urlInputValue := utf16 "https://x/v" }).1.errorMsgText ≠ "" ∧
    (handleSearchAmid sampleEngine (InfoOutcome.networkFailure "Failed to fetch")
      [Event.searchBegin,
        Event.searchResume (InfoOutcome.success (Parsed.value (sampleInfo exampleFormats)))]
      { freshPage with urlInputValue := utf16 "https://x/v" }).1.resultSectionHidden =
        false := by
  refine ⟨by decide, by decide, by decide, by decide⟩

/-- C7. Start from a controller that stores no VideoInfo and let any events happen (edits of
the URL field, choices in the select, searches started, searches finished, downloads), none of
them a metadata request returning a success response: in the state reached, `handleDownload`
issues no request, opens no browsing context and shows no alert, whatever outcome a request
would have had. -/
theorem handleDownload_before_success (eng : Engine) (st0 : Controller) (events : List Event)
    (h0 : st0.currentVideoInfo = none)
    (hev : ∀ o, Event.searchResume o ∈ events → o.isSuccess = false)
    (outcome : DownloadOutcome) :
    handleDownload eng outcome (run eng st0 events) = [] := by
  simp [handleDownload, run_keeps_info eng events st0 hev, h0]

/-- C7 (witness). The statement at a session with one failed search. -/
theorem handleDownload_before_success_witness :
    freshPage.currentVideoInfo = none ∧
    handleDownload sampleEngine
      (DownloadOutcome.success (Parsed.value { direct_url := some "https://x/y.mp4" }))
      (run sampleEngine freshPage
        [Event.input (utf16 "https://x/v"), Event.searchBegin,
         Event.searchResume
           (InfoOutcome.failure (Parsed.value { detail := PropertyValue.string "not found" })),
         Event.choose 0, Event.download DownloadOutcome.failure]) = [] :=
  ⟨rfl, handleDownload_before_success sampleEngine freshPage _ rfl (by
    intro o ho
    simp at ho
    subst ho
    rfl) _⟩

/-- C8 (as amended). When a VideoInfo is stored whose `original_url` has no unpaired surrogate,
`handleDownload` issues exactly one request, whatever its outcome: to `/api/download` with
`url` the percent-encoded stored `original_url` and `format_id` the value of the select (the
value of the selected option); on a success response whose body has a non-empty `direct_url`
it then opens one browsing context with exactly that URL and shows no alert, as for
`direct_url: "https://x/y.mp4"`. -/
theorem handleDownload_request (eng : Engine) (outcome : DownloadOutcome) (st : Controller)
    (info : VideoInfo) (h : st.currentVideoInfo = some info)
    (hw : isWellFormed info.original_url = true) :
    ∃ encoded, encodeURIComponent eng info.original_url = .ok encoded ∧
      (∃ rest, handleDownload eng outcome st =
          Effect.fetch ("/api/download?url=" ++ encoded ++ "&format_id=" ++ selectValue st) ::
            rest ∧
        ∀ e ∈ rest, ∀ u, e ≠ Effect.fetch u) ∧
      (∀ i o, st.formatSelected = some i → st.formatOptions.get? i = some o →
        selectValue st = o.value) ∧
      (∀ link, link ≠ "" →
        handleDownload eng (DownloadOutcome.success (Parsed.value { direct_url := some link }))
            st =
          [Effect.fetch ("/api/download?url=" ++ encoded ++ "&format_id=" ++ selectValue st),
            Effect.windowOpen link "_blank"]) ∧
      handleDownload eng
          (DownloadOutcome.success (Parsed.value { direct_url := some "https://x/y.mp4" })) st =
        [Effect.fetch ("/api/download?url=" ++ encoded ++ "&format_id=" ++ selectValue st),
          Effect.windowOpen "https://x/y.mp4" "_blank"] := by
  obtain ⟨encoded, he⟩ := (encodeURIComponent_ok_iff eng _).2 hw
  refine ⟨encoded, he, ⟨_, handleDownload_of_stored eng outcome st info encoded h he,
    handleDownloadTry_no_fetch eng outcome⟩, ?_, ?_, ?_⟩
  · intro i o hi ho
    simp only [selectValue, hi, ho]
  · intro link hl
    rw [handleDownload_of_stored eng _ st info encoded h he]
    simp [handleDownloadTry, hl, downloadRequest]
  · rw [handleDownload_of_stored eng _ st info encoded h he]
    simp [handleDownloadTry, downloadRequest]

/-- C8 (witness). The statement at the page after a successful search. -/
theorem handleDownload_request_witness :
    storedPage.currentVideoInfo = some (sampleInfo exampleFormats) ∧
    isWellFormed (sampleInfo exampleFormats).original_url = true ∧
    ∃ encoded,
      encodeURIComponent sampleEngine (sampleInfo exampleFormats).original_url = .ok encoded ∧
      handleDownload sampleEngine
          (DownloadOutcome.success (Parsed.value { direct_url := some "https://x/y.mp4" }))
          storedPage =
        [Effect.fetch ("/api/download?url=" ++ encoded ++ "&format_id=" ++
            selectValue storedPage),
          Effect.windowOpen "https://x/y.mp4" "_blank"] :=
  ⟨by decide, by decide,
    (handleDownload_request sampleEngine DownloadOutcome.failure storedPage
      (sampleInfo exampleFormats) (by decide) (by decide)).imp
      (fun _ hx => ⟨hx.1, hx.2.2.2.2⟩)⟩

/-- C8 (counterexample). The stored VideoInfo has the `original_url` `"\ud800"`, an unpaired
surrogate: `encodeURIComponent` throws at line 98 and `handleDownload` issues no request; it
shows an alert, also on a success response with a direct link. -/
theorem handleDownload_lone_surrogate_counterexample :
    illFormedStoredPage.currentVideoInfo = some illFormedInfo ∧
    handleDownload sampleEngine
        (DownloadOutcome.success (Parsed.value { direct_url := some "https://x/y.mp4" }))
        illFormedStoredPage =
      [Effect.alert "Error: URI malformed"] := by
  refine ⟨by decide, by decide⟩

/-- C9 (as amended). When a VideoInfo is stored and the outcome of the download request is not
a success response with a non-empty `direct_url`, `handleDownload` opens no browsing context and
issues no second request; it shows one alert when the response is a non-success response
("Error: Download failed to start"), when the request is rejected and when the body of the
success response cannot be read (the message of the error raised); when the success response
is an object without a direct link it shows no alert and does nothing further.  When
`encodeURIComponent` throws on the stored `original_url`, the only call is one alert. -/
theorem handleDownload_failure (eng : Engine) (outcome : DownloadOutcome) (st : Controller)
    (info : VideoInfo) (h : st.currentVideoInfo = some info)
    (hno : ∀ link, link ≠ "" →
      outcome ≠ DownloadOutcome.success (Parsed.value { direct_url := some link })) :
    (∀ e ∈ handleDownload eng outcome st, ∀ u t, e ≠ Effect.windowOpen u t) ∧
    (isWellFormed info.original_url = true →
      ∃ encoded, encodeURIComponent eng info.original_url = .ok encoded) ∧
    (∀ encoded, encodeURIComponent eng info.original_url = .ok encoded →
      (∃ rest, handleDownload eng outcome st =
          Effect.fetch (downloadRequest encoded (selectValue st)) :: rest ∧
        ∀ e ∈ rest, ∀ u, e ≠ Effect.fetch u) ∧
      (outcome = DownloadOutcome.failure →
        handleDownload eng outcome st =
          [Effect.fetch (downloadRequest encoded (selectValue st)),
            Effect.alert "Error: Download failed to start"]) ∧
      (∀ m, outcome = DownloadOutcome.networkFailure m →
        handleDownload eng outcome st =
          [Effect.fetch (downloadRequest encoded (selectValue st)),
            Effect.alert ("Error: " ++ m)]) ∧
      (∀ m, outcome = DownloadOutcome.success (Parsed.unparseable m) →
        handleDownload eng outcome st =
          [Effect.fetch (downloadRequest encoded (selectValue st)),
            Effect.alert ("Error: " ++ m)]) ∧
      (outcome = DownloadOutcome.success Parsed.null →
        handleDownload eng outcome st =
          [Effect.fetch (downloadRequest encoded (selectValue st)),
            Effect.alert ("Error: " ++ eng.readOfNull "direct_url")]) ∧
      (∀ body, outcome = DownloadOutcome.success (Parsed.value body) →
        handleDownload eng outcome st =
          [Effect.fetch (downloadRequest encoded (selectValue st))])) ∧
    (∀ err, encodeURIComponent eng info.original_url = .error err →
      handleDownload eng outcome st = [Effect.alert ("Error: " ++ err.message)]) := by
  refine ⟨?_, fun hw => (encodeURIComponent_ok_iff eng _).2 hw, ?_,
    fun err he => handleDownload_of_malformed eng outcome st info err h he⟩
  · intro e he u t
    cases hc : encodeURIComponent eng info.original_url with
    | error err =>
      rw [handleDownload_of_malformed eng outcome st info err h hc] at he
      simp at he
      simp [he]
    | ok encoded =>
      rw [handleDownload_of_stored eng outcome st info encoded h hc] at he
      rcases outcome with m | _ | body
      · simp [handleDownloadTry] at he; rcases he with rfl | rfl <;> simp
      · simp [handleDownloadTry] at he; rcases he with rfl | rfl <;> simp
      · rcases body with m | _ | ⟨_ | link⟩
        · simp [handleDownloadTry] at he; rcases he with rfl | rfl <;> simp
        · simp [handleDownloadTry] at he; rcases he with rfl | rfl <;> simp
        · simp [handleDownloadTry] at he; simp [he]
        · by_cases hl : link = ""
          · simp [handleDownloadTry, hl] at he; simp [he]
          · exact absurd rfl (hno link hl)
  · intro encoded hc
    refine ⟨⟨_, handleDownload_of_stored eng outcome st info encoded h hc,
      handleDownloadTry_no_fetch eng outcome⟩, ?_, ?_, ?_, ?_, ?_⟩
    · rintro rfl
      rw [handleDownload_of_stored eng _ st info encoded h hc]; simp [handleDownloadTry]
    · rintro m rfl
      rw [handleDownload_of_stored eng _ st info encoded h hc]; simp [handleDownloadTry]
    · rintro m rfl
      rw [handleDownload_of_stored eng _ st info encoded h hc]; simp [handleDownloadTry]
    · rintro rfl
      rw [handleDownload_of_stored eng _ st info encoded h hc]; simp [handleDownloadTry]
    · rintro ⟨_ | link⟩ rfl
      · rw [handleDownload_of_stored eng _ st info encoded h hc]; simp [handleDownloadTry]
      · by_cases hl : link = ""
        · rw [handleDownload_of_stored eng _ st info encoded h hc]
          simp [handleDownloadTry, hl]
        · exact absurd rfl (hno link hl)

/-- C9 (witness). The statement at a non-success response. -/
theorem handleDownload_failure_witness :
    storedPage.currentVideoInfo = some (sampleInfo exampleFormats) ∧
    handleDownload sampleEngine DownloadOutcome.failure storedPage =
      [Effect.fetch "/api/download?url=https%3A%2F%2Fx%2Fwatch%3Fv%3D1&format_id=1",
        Effect.alert "Error: Download failed to start"] :=
  ⟨by decide,
    (((handleDownload_failure sampleEngine DownloadOutcome.failure storedPage
      (sampleInfo exampleFormats) (by decide) (by intro link _ hc; cases hc)).2.2.1
        "https%3A%2F%2Fx%2Fwatch%3Fv%3D1" rfl).2.1 rfl).trans (by decide)⟩

/-- C9 (counterexample). With a VideoInfo stored, a success response whose body carries no
`direct_url` makes `handleDownload` issue its request and nothing else: no alert is shown. -/
theorem handleDownload_missing_link_counterexample :
    storedPage.currentVideoInfo = some (sampleInfo exampleFormats) ∧
    handleDownload sampleEngine (DownloadOutcome.success (Parsed.value { direct_url := none }))
        storedPage =
      [Effect.fetch "/api/download?url=https%3A%2F%2Fx%2Fwatch%3Fv%3D1&format_id=1"] ∧
    ∀ m, Effect.alert m ∉
      handleDownload sampleEngine (DownloadOutcome.success (Parsed.value { direct_url := none }))
        storedPage := by
  have h : handleDownload sampleEngine
      (DownloadOutcome.success (Parsed.value { direct_url := none })) storedPage =
      [Effect.fetch "/api/download?url=https%3A%2F%2Fx%2Fwatch%3Fv%3D1&format_id=1"] := by
    decide
  refine ⟨by decide, h, ?_⟩
  intro m hm
  rw [h] at hm
  simp at hm

/-- C10 (as amended). A new search does not drop the stored VideoInfo.  Let the controller
store a VideoInfo, let the URL field be non-empty after trimming, let the response of the new
search be a failure, and let any events happen while the request is pending, none of them a
search receiving a success response.  Once `handleSearch` is started the result section is
hidden and the same VideoInfo is still stored; when `handleSearch` has ended the same VideoInfo
is stored and the result section is hidden; a following `handleDownload` issues a download
request keyed by the `original_url` of that VideoInfo, provided `encodeURIComponent` accepts
it, which it does when it has no unpaired surrogate.  Whatever state the failure finds, it
leaves the stored VideoInfo and the visibility of the result section as they are; the stored
VideoInfo is replaced when a search receives a success response with a VideoInfo. -/
theorem handleSearch_keeps_stored (eng : Engine) (outcome : InfoOutcome) (between : List Event)
    (st : Controller) (info : VideoInfo) (h : st.currentVideoInfo = some info)
    (hu : trim st.urlInputValue ≠ []) (hf : outcome.isSuccess = false)
    (hb : ∀ o, Event.searchResume o ∈ between → o.isSuccess = false) :
    (∀ st1, (handleSearchBegin eng st = SearchStart.threw st1 ∨
        ∃ request, handleSearchBegin eng st = SearchStart.pending st1 request) →
      st1.currentVideoInfo = some info ∧ st1.resultSectionHidden = true) ∧
    (handleSearchAmid eng outcome between st).1.currentVideoInfo = some info ∧
    (handleSearchAmid eng outcome between st).1.resultSectionHidden = true ∧
    (isWellFormed info.original_url = true →
      ∃ encoded, encodeURIComponent eng info.original_url = .ok encoded) ∧
    (∀ encoded, encodeURIComponent eng info.original_url = .ok encoded →
      ∀ o, ∃ rest, handleDownload eng o (handleSearchAmid eng outcome between st).1 =
        Effect.fetch ("/api/download?url=" ++ encoded ++ "&format_id=" ++
          selectValue (handleSearchAmid eng outcome between st).1) :: rest) ∧
    (∀ st2, (handleSearchResume eng outcome st2).currentVideoInfo = st2.currentVideoInfo ∧
      (handleSearchResume eng outcome st2).resultSectionHidden = st2.resultSectionHidden) ∧
    (∀ data st2,
      (handleSearchResume eng (InfoOutcome.success (Parsed.value data)) st2).currentVideoInfo =
        some data) := by
  have hfinal : (handleSearchAmid eng outcome between st).1.currentVideoInfo = some info ∧
      (handleSearchAmid eng outcome between st).1.resultSectionHidden = true := by
    cases he : encodeURIComponent eng (trim st.urlInputValue) with
    | ok encoded =>
      rw [handleSearchAmid_ok eng outcome between st encoded hu he]
      have hk := handleSearchResume_keeps_info eng outcome
        (run eng { setLoading true st with errorMsgHidden := true, resultSectionHidden := true }
          between) hf
      constructor
      · show (handleSearchResume eng outcome _).currentVideoInfo = some info
        rw [hk.1, run_keeps_info eng between _ hb]
        simpa [setLoading] using h
      · show (handleSearchResume eng outcome _).resultSectionHidden = true
        rw [hk.2.1]
        exact run_keeps_hidden eng between _ rfl hb
    | error err =>
      rw [handleSearchAmid_error eng outcome between st err hu he]
      have hc := handleSearchCatch_frame
        { setLoading true st with errorMsgHidden := true, resultSectionHidden := true }
        (some err)
      constructor
      · show (handleSearchCatch _ _).currentVideoInfo = some info
        rw [hc.1]
        simpa [setLoading] using h
      · show (handleSearchCatch _ _).resultSectionHidden = true
        rw [hc.2.1]
  refine ⟨?_, hfinal.1, hfinal.2, fun hw => (encodeURIComponent_ok_iff eng _).2 hw, ?_, ?_, ?_⟩
  · intro st1 hs
    have := handleSearchBegin_frame eng st st1 hs
    exact ⟨this.1.trans h, this.2⟩
  · intro encoded he o
    rw [handleDownload_of_stored eng o _ info encoded hfinal.1 he]
    exact ⟨_, rfl⟩
  · intro st2
    exact ⟨(handleSearchResume_keeps_info eng outcome st2 hf).1,
      (handleSearchResume_keeps_info eng outcome st2 hf).2.1⟩
  · intro data st2
    exact handleSearchResume_stores eng data st2

/-- C10 (witness). The statement at a rejected request after a successful search, with a choice
in the select while the request is pending. -/
theorem handleSearch_keeps_stored_witness :
    storedPage.currentVideoInfo = some (sampleInfo exampleFormats) ∧
    trim storedPage.urlInputValue ≠ [] ∧
    (handleSearchAmid sampleEngine (InfoOutcome.networkFailure "Failed to fetch")
      [Event.choose 1] storedPage).1.currentVideoInfo = some (sampleInfo exampleFormats) :=
  ⟨by decide, by decide,
    (handleSearch_keeps_stored sampleEngine (InfoOutcome.networkFailure "Failed to fetch")
      [Event.choose 1] storedPage (sampleInfo exampleFormats) (by decide) (by decide) rfl
      (by intro o ho; simp at ho)).2.1⟩

/-- C10 (counterexample). On the page that stores the VideoInfo of an earlier successful
search, a new search is started and fails: the VideoInfo is still stored once the search has
started and after it has failed, and a following `handleDownload` issues a request. -/
theorem handleSearch_drop_counterexample :
    storedPage.currentVideoInfo = some (sampleInfo exampleFormats) ∧
    trim storedPage.urlInputValue ≠ [] ∧
    (∃ st1 request, handleSearchBegin sampleEngine storedPage = SearchStart.pending st1 request ∧
      st1.currentVideoInfo = some (sampleInfo exampleFormats)) ∧
    (handleSearch sampleEngine (InfoOutcome.networkFailure "Failed to fetch")
      storedPage).1.currentVideoInfo ≠ none ∧
    handleDownload sampleEngine DownloadOutcome.failure
        (handleSearch sampleEngine (InfoOutcome.networkFailure "Failed to fetch") storedPage).1 =
      [Effect.fetch "/api/download?url=https%3A%2F%2Fx%2Fwatch%3Fv%3D1&format_id=1",
        Effect.alert "Error: Download failed to start"] := by
  refine ⟨by decide, by decide, ?_, by decide, by decide⟩
  refine ⟨{ setLoading true storedPage with errorMsgHidden := true, resultSectionHidden := true },
    "/api/info?url=https%3A%2F%2Fx%2Fv", by decide, by decide⟩

end VideoDownloader
